import Mathlib

/-!
Verification development for the Account Admission & Resilience Control layer
of the relay service: the request pacing guard (interval guard), the
per-account rate limiter with queued admission, and the 403 circuit breaker.

Shallow embedding conventions:
* wall-clock timestamps in the pacing guard and circuit breaker are integers
  (milliseconds), matching the JavaScript `Date.now()` values;
* durations and timestamps in the rate limiter are rationals, because the
  poll-interval computation multiplies by non-integer factors (1.5 backoff,
  0.85 + 0.3 * random jitter);
* the shared store is modelled as explicit state threaded through each
  operation; a sleep is modelled as advancing the wall clock by exactly the
  requested duration;
* JavaScript truthiness tests on numbers (`if (x)`) are modelled as `x ≠ 0`,
  and on possibly-missing values as `Option`.
-/

namespace RelayGuard

/-! ## Pacing guard (request interval guard, `SameSecondRequestGuard` in
`src/utils/ipHelper.js`, interval variant) -/

/-- Result pair {allowed, waitedMs} returned by the pacing guard. -/
structure PacingResult where
  allowed : Bool
  waitedMs : ℤ
deriving DecidableEq, Repr

/-- Return value of the atomic Lua script: required wait in ms and whether the
request may execute immediately. -/
structure PacingCheck where
  waitMs : ℤ
  canExecute : Bool
deriving DecidableEq, Repr

/-- A write of the pacing timestamp to the shared store: either the SETEX
performed inside the atomic Lua script (`script`), or the separate
unconditional `client.setex` issued by the caller after waiting (`plain`). -/
inductive PacingWrite where
  | script (v : ℤ)
  | plain (v : ℤ)
deriving DecidableEq, Repr

/-- Whether a pacing-state write went through the atomic scripted primitive. -/
def PacingWrite.isScript : PacingWrite → Bool
  | .script _ => true
  | .plain _ => false

/-- The atomic Lua script of `_checkAndWaitWithRedis`: reads the stored
last-request timestamp, decides whether the caller must wait, and — only when
no wait is needed — writes the new timestamp (SETEX) as part of the same
indivisible script.  Returns the check result together with the value written
by the script, if any.  Lua's `math.floor(x / 1000)` is floored division
(`Int.fdiv`) and `x % 1000` is floored remainder (`Int.fmod`). -/
def luaIntervalCheck (stored : Option ℤ) (currentTimeMs minIntervalMs : ℤ) :
    PacingCheck × Option ℤ :=
  match stored with
  | some lastTimeMs =>
    if minIntervalMs > 0 then
      -- minimum-interval mode
      if currentTimeMs - lastTimeMs < minIntervalMs then
        (⟨minIntervalMs - (currentTimeMs - lastTimeMs), false⟩, none)
      else
        (⟨0, true⟩, some currentTimeMs)
    else
      -- same-second mode
      if Int.fdiv currentTimeMs 1000 = Int.fdiv lastTimeMs 1000 then
        (⟨1000 - Int.fmod currentTimeMs 1000, false⟩, none)
      else
        (⟨0, true⟩, some currentTimeMs)
  | none => (⟨0, true⟩, some currentTimeMs)

/-- Observable outcome of the store-backed pacing path: the caller-visible
result, the sequence of pacing-state writes issued to the store, and the time
actually slept. -/
structure RedisPacingOut where
  result : PacingResult
  writes : List PacingWrite
  sleptMs : ℤ
deriving DecidableEq, Repr

/-- Store-backed path `_checkAndWaitWithRedis`: run the atomic script; on
`canExecute` admit at once (the script already recorded the timestamp); if the
required wait exceeds `maxWaitMs` fail fast with no sleep and no write;
otherwise sleep the required wait and then record the post-wait clock value
with a plain unconditional `client.setex`.  The post-wait `Date.now()` is
modelled as `currentTimeMs + waitMs` (exact sleep). -/
def checkAndWaitWithRedis (stored : Option ℤ)
    (startTime currentTimeMs maxWaitMs minIntervalMs : ℤ) : RedisPacingOut :=
  let c := luaIntervalCheck stored currentTimeMs minIntervalMs
  if c.1.canExecute then
    ⟨⟨true, 0⟩, [.script currentTimeMs], 0⟩
  else if c.1.waitMs > maxWaitMs then
    ⟨⟨false, 0⟩, [], 0⟩
  else
    ⟨⟨true, currentTimeMs + c.1.waitMs - startTime⟩,
     [.plain (currentTimeMs + c.1.waitMs)], c.1.waitMs⟩

/-- Wait computation of the memory-fallback path `_checkAndWaitWithMemory`.
The JavaScript guard `if (lastTimeMs)` is numeric truthiness: a missing entry
and a stored value of exactly 0 are both treated as no prior timestamp. -/
def memoryWaitMs (mem : Option ℤ) (currentTimeMs minIntervalMs : ℤ) : ℤ :=
  match mem with
  | some lastTimeMs =>
    if lastTimeMs ≠ 0 then
      if minIntervalMs > 0 then
        if currentTimeMs - lastTimeMs < minIntervalMs then
          minIntervalMs - (currentTimeMs - lastTimeMs)
        else 0
      else
        if Int.fdiv currentTimeMs 1000 = Int.fdiv lastTimeMs 1000 then
          1000 - Int.fmod currentTimeMs 1000
        else 0
    else 0
  | none => 0

/-- Observable outcome of the memory-fallback pacing path: result, the new
memory-cache entry for the key, and the time slept. -/
structure MemPacingOut where
  result : PacingResult
  newMem : Option ℤ
  sleptMs : ℤ
deriving DecidableEq, Repr

/-- Memory-fallback path `_checkAndWaitWithMemory`: same check against the
process-local cache; on zero wait admit and stamp now; on a wait above
`maxWaitMs` fail fast without sleeping or stamping; otherwise sleep and stamp
the post-wait clock value. -/
def checkAndWaitWithMemory (mem : Option ℤ)
    (startTime currentTimeMs maxWaitMs minIntervalMs : ℤ) : MemPacingOut :=
  let waitMs := memoryWaitMs mem currentTimeMs minIntervalMs
  if waitMs = 0 then
    ⟨⟨true, 0⟩, some currentTimeMs, 0⟩
  else if waitMs > maxWaitMs then
    ⟨⟨false, 0⟩, mem, 0⟩
  else
    ⟨⟨true, currentTimeMs + waitMs - startTime⟩, some (currentTimeMs + waitMs), waitMs⟩

/-- Availability of the shared store as seen by one `checkAndWait` call:
either the client is up and the atomic script runs against the stored value,
or one of the three failure modes occurs (no client, a thrown client error, a
thrown Lua-eval error), each of which the source routes to the memory path. -/
inductive StoreState where
  | up (stored : Option ℤ)
  | noClient
  | clientError
  | evalError
deriving DecidableEq, Repr

/-- Which implementation path a `checkAndWait` call ran. -/
inductive PacingPath where
  | store
  | memory
deriving DecidableEq, Repr

/-- Top-level pacing `checkAndWait`: use the store-backed path when the client
is available and working; degrade to the memory fallback when there is no
client, when the client throws, or when the Lua eval throws. -/
def pacingCheckAndWait (st : StoreState) (mem : Option ℤ)
    (startTime currentTimeMs maxWaitMs minIntervalMs : ℤ) :
    PacingResult × PacingPath :=
  match st with
  | .up stored =>
    ((checkAndWaitWithRedis stored startTime currentTimeMs maxWaitMs minIntervalMs).result,
     .store)
  | .noClient =>
    ((checkAndWaitWithMemory mem startTime currentTimeMs maxWaitMs minIntervalMs).result,
     .memory)
  | .clientError =>
    ((checkAndWaitWithMemory mem startTime currentTimeMs maxWaitMs minIntervalMs).result,
     .memory)
  | .evalError =>
    ((checkAndWaitWithMemory mem startTime currentTimeMs maxWaitMs minIntervalMs).result,
     .memory)

/-! ## Account rate limiter (`AccountRateLimitService` in
`src/services/accountRateLimitService.js`) -/

/-- Base poll interval of the queueing loop, in milliseconds. -/
def POLL_INTERVAL_BASE_MS : ℚ := 50

/-- Maximum poll interval of the queueing loop, in milliseconds. -/
def POLL_INTERVAL_MAX_MS : ℚ := 500

/-- Exponential-backoff factor of the queueing loop. -/
def POLL_BACKOFF_FACTOR : ℚ := 3 / 2

/-- Resolved rate-limit configuration (global config merged with the
account-level override). -/
structure RateLimitConfig where
  enabled : Bool
  windowSeconds : ℚ
  maxRequests : ℕ
  queueTimeoutMs : ℚ
  enableQueueing : Bool
deriving DecidableEq, Repr

/-- One interaction of the acquire loop with the shared store
(`redis.acquireAccountRateLimit`): either the call succeeds and reports
whether a slot was acquired, the resulting in-window count, and the oldest
surviving request timestamp (0 encodes the JavaScript-falsy null/absent
value), or the store throws.  `rand` is the `Math.random()` draw used for
jitter on that iteration. -/
inductive RLAttempt where
  | ok (acquired : Bool) (currentCount : ℕ) (oldestRequestTime : ℚ) (rand : ℚ)
  | err
deriving DecidableEq, Repr

/-- Error kinds of the rate limiter. -/
inductive RLError where
  | rateLimitExceeded
  | queueTimeout
  | backendError
deriving DecidableEq, Repr

/-- Caller-visible result of `acquireRateLimit` (the request id is omitted:
it is an opaque token threaded through unchanged). -/
structure RLResult where
  acquired : Bool
  error : Option RLError
  waitedMs : Option ℚ
  skipped : Bool
deriving DecidableEq, Repr

/-- Outcome of the acquire loop: the returned result (`none` when the
modelled supply of store interactions ran out before the loop returned) and
the wall-clock time at which the call returned. -/
structure RLOut where
  result : Option RLResult
  endTime : ℚ
deriving DecidableEq, Repr

/-- What one iteration of the acquire loop decides after its store
interaction: either return a result, or sleep for `d` milliseconds and retry
with the given poll-retry counter. -/
inductive RLStep where
  | done (r : RLResult)
  | sleep (d : ℚ) (retryCount : ℕ)
deriving DecidableEq, Repr

/-- Body of one iteration of the `acquireRateLimit` queueing loop, given the
outcome of this iteration's store interaction.  On a store error, return
`backendError` at once.  On an admitted slot, return success with the waited
time.  Over the limit with queueing disabled, return `rateLimitExceeded`.
Otherwise compute the wait until the oldest in-window entry expires (0 when
the oldest timestamp is JS-falsy): if it exceeds the remaining timeout
budget return `queueTimeout` without sleeping; if it is positive sleep it,
capped to the remaining budget; else sleep a jittered, exponentially growing
poll interval capped at `POLL_INTERVAL_MAX_MS` and bump the retry counter. -/
def acquireStep (cfg : RateLimitConfig) (startTime now : ℚ) (retryCount : ℕ) :
    RLAttempt → RLStep
  | .err => .done ⟨false, some .backendError, none, false⟩
  | .ok acquired _currentCount oldestRequestTime rand =>
    if acquired then
      .done ⟨true, none, some (now - startTime), false⟩
    else if cfg.enableQueueing = false then
      .done ⟨false, some .rateLimitExceeded, none, false⟩
    else
      let waitMs : ℚ :=
        if oldestRequestTime ≠ 0 then
          max 0 (oldestRequestTime + cfg.windowSeconds * 1000 - now)
        else 0
      let remainingTimeout := cfg.queueTimeoutMs - (now - startTime)
      if waitMs > remainingTimeout then
        .done ⟨false, some .queueTimeout, none, false⟩
      else if waitMs > 0 then
        .sleep (min waitMs remainingTimeout) retryCount
      else
        let basePollInterval :=
          min (POLL_INTERVAL_BASE_MS * POLL_BACKOFF_FACTOR ^ retryCount)
            POLL_INTERVAL_MAX_MS
        let jitter := basePollInterval * (85 / 100 + rand * (30 / 100))
        .sleep (min jitter POLL_INTERVAL_MAX_MS) (retryCount + 1)

/-- The queueing loop of `acquireRateLimit`.  `startTime` is the time the
call began, `now` the current wall clock, `retryCount` the number of
jittered polls performed so far.  The deadline `now - startTime <
queueTimeoutMs` is re-checked before every iteration; once it fails the loop
returns `queueTimeout`.  A sleep advances the wall clock by exactly the
requested duration (a non-positive delay fires immediately, hence `max 0`,
matching setTimeout). -/
def acquireLoop (cfg : RateLimitConfig) (startTime : ℚ) :
    List RLAttempt → ℚ → ℕ → RLOut
  | [], now, _retryCount =>
    if now - startTime < cfg.queueTimeoutMs then ⟨none, now⟩
    else ⟨some ⟨false, some .queueTimeout, none, false⟩, now⟩
  | a :: rest, now, retryCount =>
    if now - startTime < cfg.queueTimeoutMs then
      match acquireStep cfg startTime now retryCount a with
      | .done r => ⟨some r, now⟩
      | .sleep d retryCount' =>
        acquireLoop cfg startTime rest (now + max 0 d) retryCount'
    else
      ⟨some ⟨false, some .queueTimeout, none, false⟩, now⟩

/-- Top-level `acquireRateLimit`: skip when disabled by resolved config,
otherwise run the queueing loop from the call's start time. -/
def acquireRateLimit (cfg : RateLimitConfig) (startTime : ℚ)
    (attempts : List RLAttempt) : RLOut :=
  if cfg.enabled = false then
    ⟨some ⟨true, none, none, true⟩, startTime⟩
  else
    acquireLoop cfg startTime attempts startTime 0

/-! ## 403 circuit breaker (`Error403CircuitBreakerService` in
`src/services/error403CircuitBreakerService.js`) -/

/-- Resolved circuit-breaker configuration (global merged with account
override). -/
structure BreakerCfg where
  enabled : Bool
  threshold : ℕ
  windowSeconds : ℤ
  breakerDurationMinutes : ℤ
  autoRecovery : Bool
deriving DecidableEq, Repr

/-- Breaker fields persisted on the account registry hash.  A missing hash
field is `none` (the source deletes a field to store null). -/
structure BreakerFields where
  state : Option String
  openAt : Option ℤ
  openUntil : Option ℤ
deriving DecidableEq, Repr

/-- The fixed list of account-type partitions scanned by the service. -/
def accountTypes : List String :=
  ["claude_account", "claude_console_account", "gemini_account", "bedrock_account",
   "azure_openai_account", "droid_account", "ccr_account", "openai_responses_account"]

/-- Shared store as seen by the circuit breaker: the account registry (a
hash per `accountType:accountId`, `none` when the hash is empty or missing)
and the rolling 403-error windows keyed by account id. -/
structure BreakerStore where
  registry : String → String → Option BreakerFields
  errors : String → List ℤ

/-- The for-loop of `_getAccountData`: return the record found under the
first account-type partition that holds one. -/
def findAccountData (reg : String → String → Option BreakerFields)
    (accountId : String) : List String → Option BreakerFields
  | [] => none
  | t :: ts =>
    match reg t accountId with
    | some d => some d
    | none => findAccountData reg accountId ts

/-- `_getAccountData`: search the fixed account-type partitions for the
account's record. -/
def getAccountData (s : BreakerStore) (accountId : String) : Option BreakerFields :=
  findAccountData s.registry accountId accountTypes

/-- The partition-search of `_updateAccountBreakerState`: the first
account-type partition whose hash for this account exists. -/
def findAccountType (reg : String → String → Option BreakerFields)
    (accountId : String) : List String → Option String
  | [] => none
  | t :: ts =>
    if (reg t accountId).isSome then some t else findAccountType reg accountId ts

/-- A field update passed to `_updateAccountBreakerState`: `none` leaves the
field alone, `some none` deletes it (the source's null → hdel), `some v`
writes `v`. -/
structure BreakerUpdate where
  state : Option (Option String)
  openAt : Option (Option ℤ)
  openUntil : Option (Option ℤ)
deriving DecidableEq, Repr

/-- Apply a `BreakerUpdate` to one account record (hdel for null values,
hmset for the rest). -/
def applyUpdate (f : BreakerFields) (u : BreakerUpdate) : BreakerFields :=
  ⟨match u.state with | none => f.state | some v => v,
   match u.openAt with | none => f.openAt | some v => v,
   match u.openUntil with | none => f.openUntil | some v => v⟩

/-- `_updateAccountBreakerState`: find the first account-type partition
holding the account's hash and apply the field updates there; report `false`
without touching anything when the account exists in no partition. -/
def updateAccountBreakerState (s : BreakerStore) (accountId : String)
    (u : BreakerUpdate) : BreakerStore × Bool :=
  match findAccountType s.registry accountId accountTypes with
  | some t =>
    (⟨fun t' i' =>
        if t' = t ∧ i' = accountId then
          (s.registry t accountId).map (fun f => applyUpdate f u)
        else s.registry t' i',
      s.errors⟩, true)
  | none => (s, false)

/-- Modelled from the spec: `redis.record403Error(accountId, windowSeconds)`
(defined in `src/models/redis.js`, which is not under `src/`) atomically
appends a failure timestamp to the account's rolling error window, evicting
entries older than `windowSeconds`, and reads back the resulting count. -/
def redisRecord403Error (errors : List ℤ) (now windowSeconds : ℤ) : List ℤ × ℕ :=
  let kept := errors.filter (fun t => now - t < windowSeconds * 1000)
  (now :: kept, (now :: kept).length)

/-- Modelled from the spec: `redis.get403ErrorCount(accountId, windowSeconds)`
(defined in `src/models/redis.js`, which is not under `src/`) reads the
number of recorded failure timestamps within the given window. -/
def get403ErrorCount (errors : List ℤ) (now windowSeconds : ℤ) : ℕ :=
  (errors.filter (fun t => now - t < windowSeconds * 1000)).length

/-- Modelled from the spec: `redis.clear403Errors(accountId)` (defined in
`src/models/redis.js`, which is not under `src/`) clears the account's
rolling 403-error history. -/
def clear403Errors (s : BreakerStore) (accountId : String) : BreakerStore :=
  ⟨s.registry, fun i => if i = accountId then [] else s.errors i⟩

/-- `openCircuitBreaker`: set `state=open`, `openAt=now`,
`openUntil = now + breakerDurationMinutes*60*1000` on the account record.
Returns `true` even when the underlying update found no account record (the
source ignores `_updateAccountBreakerState`'s return value and only reports
`false` when the store throws, which is not modelled). -/
def openCircuitBreaker (s : BreakerStore) (cfg : BreakerCfg) (accountId : String)
    (now : ℤ) : BreakerStore × Bool :=
  ((updateAccountBreakerState s accountId
      ⟨some (some "open"), some (some now),
       some (some (now + cfg.breakerDurationMinutes * 60 * 1000))⟩).1,
   true)

/-- `halfOpenCircuitBreaker`: set `state=half_open`, leaving `openAt`,
`openUntil` and the error history untouched. -/
def halfOpenCircuitBreaker (s : BreakerStore) (accountId : String) :
    BreakerStore × Bool :=
  ((updateAccountBreakerState s accountId ⟨some (some "half_open"), none, none⟩).1,
   true)

/-- `closeCircuitBreaker`: clear the 403-error history, then set
`state=closed` and delete `openAt`/`openUntil`. -/
def closeCircuitBreaker (s : BreakerStore) (accountId : String) :
    BreakerStore × Bool :=
  let s1 := clear403Errors s accountId
  ((updateAccountBreakerState s1 accountId
      ⟨some (some "closed"), some none, some none⟩).1,
   true)

/-- Result of `record403Error`. -/
structure Record403Result where
  triggered : Bool
  errorCount : ℕ
  threshold : ℕ
  state : String
deriving DecidableEq, Repr

/-- `record403Error`: when disabled return `state=disabled` without
recording; otherwise append the failure to the rolling window, and open the
breaker when the resulting count reaches the threshold. -/
def record403Error (s : BreakerStore) (cfg : BreakerCfg) (accountId : String)
    (now : ℤ) : BreakerStore × Record403Result :=
  if cfg.enabled = false then
    (s, ⟨false, 0, cfg.threshold, "disabled"⟩)
  else
    let rec403 := redisRecord403Error (s.errors accountId) now cfg.windowSeconds
    let s1 : BreakerStore :=
      ⟨s.registry, fun i => if i = accountId then rec403.1 else s.errors i⟩
    if rec403.2 ≥ cfg.threshold then
      ((openCircuitBreaker s1 cfg accountId now).1,
       ⟨true, rec403.2, cfg.threshold, "open"⟩)
    else
      (s1, ⟨false, rec403.2, cfg.threshold, "closed"⟩)

/-- Result of `checkAndRecoverBreaker`. -/
structure RecoverResult where
  recovered : Bool
  state : String
  remainingMs : Option ℤ
deriving DecidableEq, Repr

/-- `checkAndRecoverBreaker`: no-op unless the persisted state is `open`;
once `now ≥ openUntil` (a missing `openUntil` parses as 0) transition to
`half_open`, otherwise report the remaining cooldown. -/
def checkAndRecoverBreaker (s : BreakerStore) (accountId : String) (now : ℤ) :
    BreakerStore × RecoverResult :=
  match getAccountData s accountId with
  | none => (s, ⟨false, "closed", none⟩)
  | some d =>
    if d.state ≠ some "open" then
      (s, ⟨false, d.state.getD "closed", none⟩)
    else
      let openUntil := d.openUntil.getD 0
      if now ≥ openUntil then
        ((halfOpenCircuitBreaker s accountId).1, ⟨true, "half_open", none⟩)
      else
        (s, ⟨false, "open", some (openUntil - now)⟩)

/-- Status projection returned by `getBreakerStatus`. -/
structure BreakerStatus where
  state : String
  errorCount : ℕ
  threshold : ℕ
  openAt : Option ℤ
  openUntil : Option ℤ
  remainingMs : ℤ
deriving DecidableEq, Repr

/-- `getBreakerStatus`: read-only projection.  The live error count is read
over a hardcoded 300-second window (`redis.get403ErrorCount(accountId, 300)`
in the source), independent of the configured `windowSeconds`. -/
def getBreakerStatus (s : BreakerStore) (cfg : BreakerCfg) (accountId : String)
    (now : ℤ) : BreakerStatus :=
  let errorCount := get403ErrorCount (s.errors accountId) now 300
  match getAccountData s accountId with
  | none => ⟨"closed", errorCount, cfg.threshold, none, none, 0⟩
  | some d =>
    let st := d.state.getD "closed"
    ⟨st, errorCount, cfg.threshold, d.openAt, d.openUntil,
     if d.openUntil.isSome = true ∧ st = "open" then
       max 0 (d.openUntil.getD 0 - now)
     else 0⟩

/-! ## Theorems: pacing guard -/

/-- C1 counterexample: it is not the case that every pacing-state write of the
store-backed path goes through the store's atomic scripted primitive.  With a
stored timestamp 1200, a call at time 1500 (same wall-clock second, same-second
mode, `maxWaitMs = 1000`) waits and then records the new timestamp 2000 with a
plain unconditional `client.setex`, outside any atomic check-and-mutate. -/
theorem pacing_post_wait_write_not_atomic :
    ¬ (∀ (stored : Option ℤ) (startTime currentTimeMs maxWaitMs minIntervalMs : ℤ),
        ∀ w ∈ (checkAndWaitWithRedis stored startTime currentTimeMs maxWaitMs
            minIntervalMs).writes, w.isScript = true) := by
  intro h
  have hmem : PacingWrite.plain 2000 ∈
      (checkAndWaitWithRedis (some 1200) 1500 1500 1000 0).writes := by decide
  have := h (some 1200) 1500 1500 1000 0 (.plain 2000) hmem
  simp [PacingWrite.isScript] at this

/-- C1 (amended): in the pacing guard's store-backed path, the initial
check-and-record is a single atomic scripted operation (an immediately
admitted call's only write is the SETEX inside the Lua script), and a blocked
call writes nothing; but after a performed wait the new timestamp is recorded
by one plain unconditional store write, not through the atomic primitive. -/
theorem pacing_store_write_paths (stored : Option ℤ)
    (startTime currentTimeMs maxWaitMs minIntervalMs : ℤ) :
    ((luaIntervalCheck stored currentTimeMs minIntervalMs).1.canExecute = true →
      (checkAndWaitWithRedis stored startTime currentTimeMs maxWaitMs
        minIntervalMs).writes = [.script currentTimeMs]) ∧
    ((luaIntervalCheck stored currentTimeMs minIntervalMs).1.canExecute = false →
      maxWaitMs < (luaIntervalCheck stored currentTimeMs minIntervalMs).1.waitMs →
      (checkAndWaitWithRedis stored startTime currentTimeMs maxWaitMs
        minIntervalMs).writes = []) ∧
    ((luaIntervalCheck stored currentTimeMs minIntervalMs).1.canExecute = false →
      (luaIntervalCheck stored currentTimeMs minIntervalMs).1.waitMs ≤ maxWaitMs →
      (checkAndWaitWithRedis stored startTime currentTimeMs maxWaitMs
          minIntervalMs).writes =
        [.plain (currentTimeMs +
          (luaIntervalCheck stored currentTimeMs minIntervalMs).1.waitMs)] ∧
      PacingWrite.isScript (.plain (currentTimeMs +
        (luaIntervalCheck stored currentTimeMs minIntervalMs).1.waitMs)) = false) := by
  refine ⟨fun h => ?_, fun h h2 => ?_, fun h h2 => ⟨?_, rfl⟩⟩
  · simp [checkAndWaitWithRedis, h]
  · simp [checkAndWaitWithRedis, h, h2]
  · simp [checkAndWaitWithRedis, h, not_lt.mpr h2]

/-- Witness for the amended C1 theorem: a concrete waited call whose single
write is the plain post-wait write. -/
theorem pacing_store_write_paths_witness :
    (luaIntervalCheck (some 1200) 1500 0).1.canExecute = false ∧
    (luaIntervalCheck (some 1200) 1500 0).1.waitMs ≤ 1000 ∧
    ((checkAndWaitWithRedis (some 1200) 1500 1500 1000 0).writes =
        [.plain (1500 + (luaIntervalCheck (some 1200) 1500 0).1.waitMs)] ∧
      PacingWrite.isScript (.plain (1500 +
        (luaIntervalCheck (some 1200) 1500 0).1.waitMs)) = false) :=
  ⟨by decide, by decide,
   (pacing_store_write_paths (some 1200) 1500 1500 1000 0).2.2 (by decide) (by decide)⟩

/-- C6: whenever the computed required wait exceeds `maxWaitMs`, the pacing
guard returns `allowed = false, waitedMs = 0` without sleeping and without
mutating the stored timestamp, in both the store-backed path and the
memory-fallback path. -/
theorem pacing_blocked_fast_fail :
    (∀ (stored : Option ℤ) (startTime currentTimeMs maxWaitMs minIntervalMs : ℤ),
      (luaIntervalCheck stored currentTimeMs minIntervalMs).1.canExecute = false →
      maxWaitMs < (luaIntervalCheck stored currentTimeMs minIntervalMs).1.waitMs →
      checkAndWaitWithRedis stored startTime currentTimeMs maxWaitMs minIntervalMs =
        ⟨⟨false, 0⟩, [], 0⟩) ∧
    (∀ (mem : Option ℤ) (startTime currentTimeMs maxWaitMs minIntervalMs : ℤ),
      memoryWaitMs mem currentTimeMs minIntervalMs ≠ 0 →
      maxWaitMs < memoryWaitMs mem currentTimeMs minIntervalMs →
      checkAndWaitWithMemory mem startTime currentTimeMs maxWaitMs minIntervalMs =
        ⟨⟨false, 0⟩, mem, 0⟩) := by
  constructor
  · intro stored startTime currentTimeMs maxWaitMs minIntervalMs h h2
    simp [checkAndWaitWithRedis, h, h2]
  · intro mem startTime currentTimeMs maxWaitMs minIntervalMs h h2
    simp [checkAndWaitWithMemory, h, h2]

/-- Witness for the C6 theorem: with stored timestamp 1200 and a call at 1500
in same-second mode, the required wait 500 exceeds `maxWaitMs = 300` and the
call fails fast with no sleep and no write, in both paths. -/
theorem pacing_blocked_fast_fail_witness :
    ((luaIntervalCheck (some 1200) 1500 0).1.canExecute = false ∧
      (300 : ℤ) < (luaIntervalCheck (some 1200) 1500 0).1.waitMs ∧
      checkAndWaitWithRedis (some 1200) 1500 1500 300 0 = ⟨⟨false, 0⟩, [], 0⟩) ∧
    (memoryWaitMs (some 1200) 1500 0 ≠ 0 ∧
      (300 : ℤ) < memoryWaitMs (some 1200) 1500 0 ∧
      checkAndWaitWithMemory (some 1200) 1500 1500 300 0 = ⟨⟨false, 0⟩, some 1200, 0⟩) :=
  ⟨⟨by decide, by decide,
    pacing_blocked_fast_fail.1 (some 1200) 1500 1500 300 0 (by decide) (by decide)⟩,
   ⟨by decide, by decide,
    pacing_blocked_fast_fail.2 (some 1200) 1500 1500 300 0 (by decide) (by decide)⟩⟩

/-- C7: the pacing guard's required-wait computation.  With no prior stored
timestamp both paths admit immediately with `waitedMs = 0` and record `now`.
With a prior timestamp, in same-second mode (`minIntervalMs = 0`) a conflict
exists exactly when `floor(now/1000) = floor(last/1000)` and the required wait
is `1000 - (now mod 1000)`; in spacing mode (`minIntervalMs > 0`) a conflict
exists exactly when `now - last < minIntervalMs` and the required wait is
`minIntervalMs - (now - last)`.  The memory path treats a stored value of 0 as
absent (JavaScript truthiness), so its conjuncts assume a nonzero prior
timestamp — every recorded timestamp is a positive `Date.now()` value. -/
theorem pacing_required_wait_algorithm :
    (∀ startTime currentTimeMs maxWaitMs minIntervalMs : ℤ,
      checkAndWaitWithRedis none startTime currentTimeMs maxWaitMs minIntervalMs =
        ⟨⟨true, 0⟩, [.script currentTimeMs], 0⟩) ∧
    (∀ startTime currentTimeMs maxWaitMs minIntervalMs : ℤ,
      checkAndWaitWithMemory none startTime currentTimeMs maxWaitMs minIntervalMs =
        ⟨⟨true, 0⟩, some currentTimeMs, 0⟩) ∧
    (∀ currentTimeMs lastTimeMs : ℤ,
      ((luaIntervalCheck (some lastTimeMs) currentTimeMs 0).1.canExecute = false ↔
        Int.fdiv currentTimeMs 1000 = Int.fdiv lastTimeMs 1000) ∧
      (Int.fdiv currentTimeMs 1000 = Int.fdiv lastTimeMs 1000 →
        (luaIntervalCheck (some lastTimeMs) currentTimeMs 0).1.waitMs =
          1000 - Int.fmod currentTimeMs 1000)) ∧
    (∀ currentTimeMs lastTimeMs minIntervalMs : ℤ, 0 < minIntervalMs →
      ((luaIntervalCheck (some lastTimeMs) currentTimeMs minIntervalMs).1.canExecute
          = false ↔ currentTimeMs - lastTimeMs < minIntervalMs) ∧
      (currentTimeMs - lastTimeMs < minIntervalMs →
        (luaIntervalCheck (some lastTimeMs) currentTimeMs minIntervalMs).1.waitMs =
          minIntervalMs - (currentTimeMs - lastTimeMs))) ∧
    (∀ currentTimeMs lastTimeMs : ℤ, lastTimeMs ≠ 0 →
      memoryWaitMs (some lastTimeMs) currentTimeMs 0 =
        if Int.fdiv currentTimeMs 1000 = Int.fdiv lastTimeMs 1000 then
          1000 - Int.fmod currentTimeMs 1000
        else 0) ∧
    (∀ currentTimeMs lastTimeMs minIntervalMs : ℤ, lastTimeMs ≠ 0 →
      0 < minIntervalMs →
      memoryWaitMs (some lastTimeMs) currentTimeMs minIntervalMs =
        if currentTimeMs - lastTimeMs < minIntervalMs then
          minIntervalMs - (currentTimeMs - lastTimeMs)
        else 0) := by
  refine ⟨fun s c mx mi => ?_, fun s c mx mi => ?_,
    fun c l => ⟨?_, fun h => ?_⟩, fun c l mi hmi => ⟨?_, fun h => ?_⟩,
    fun c l hl => ?_, fun c l mi hl hmi => ?_⟩
  · simp [checkAndWaitWithRedis, luaIntervalCheck]
  · simp [checkAndWaitWithMemory, memoryWaitMs]
  · by_cases h : Int.fdiv c 1000 = Int.fdiv l 1000 <;> simp [luaIntervalCheck, h]
  · simp [luaIntervalCheck, h]
  · by_cases h : c - l < mi <;> simp [luaIntervalCheck, hmi, h]
  · simp [luaIntervalCheck, hmi, h]
  · by_cases h : Int.fdiv c 1000 = Int.fdiv l 1000 <;> simp [memoryWaitMs, hl, h]
  · by_cases h : c - l < mi <;> simp [memoryWaitMs, hl, hmi, h]

/-- Witness for the C7 theorem: concrete instances of the spacing-mode and
same-second conjuncts. -/
theorem pacing_required_wait_algorithm_witness :
    ((0 : ℤ) < 200 ∧
      ((luaIntervalCheck (some 1400) 1500 200).1.canExecute = false ↔
        (1500 : ℤ) - 1400 < 200)) ∧
    ((1400 : ℤ) ≠ 0 ∧
      memoryWaitMs (some 1400) 1500 0 =
        if Int.fdiv 1500 1000 = Int.fdiv (1400 : ℤ) 1000 then
          1000 - Int.fmod 1500 1000
        else 0) :=
  ⟨⟨by decide, (pacing_required_wait_algorithm.2.2.2.1 1500 1400 200 (by decide)).1⟩,
   ⟨by decide, pacing_required_wait_algorithm.2.2.2.2.1 1500 1400 (by decide)⟩⟩

/-! ## Theorems: rate limiter -/

/-- Any sleep the acquire loop performs is either capped to the remaining
timeout budget (the explicit wait for the oldest entry to expire) or capped
to the maximum poll interval (the jittered backoff poll). -/
theorem acquireStep_sleep_bound (cfg : RateLimitConfig) (startTime now : ℚ)
    (retryCount : ℕ) (a : RLAttempt) (d : ℚ) (retryCount' : ℕ)
    (h : acquireStep cfg startTime now retryCount a = .sleep d retryCount') :
    d ≤ cfg.queueTimeoutMs - (now - startTime) ∨ d ≤ POLL_INTERVAL_MAX_MS := by
  cases a with
  | err => simp [acquireStep] at h
  | ok acquired currentCount oldestRequestTime rand =>
    simp only [acquireStep] at h
    split_ifs at h <;>
      first
        | exact (RLStep.noConfusion h)
        | (injection h with h1 h2; subst h1; exact Or.inl (min_le_right _ _))
        | (injection h with h1 h2; subst h1; exact Or.inr (min_le_right _ _))

/-- Invariant of the acquire loop: if the loop is entered with at most
`queueTimeoutMs + POLL_INTERVAL_MAX_MS` elapsed, it returns with at most
that much elapsed. -/
theorem acquireLoop_endTime_bound (cfg : RateLimitConfig) (startTime : ℚ)
    (attempts : List RLAttempt) :
    ∀ (now : ℚ) (retryCount : ℕ),
      now - startTime ≤ cfg.queueTimeoutMs + POLL_INTERVAL_MAX_MS →
      (acquireLoop cfg startTime attempts now retryCount).endTime - startTime ≤
        cfg.queueTimeoutMs + POLL_INTERVAL_MAX_MS := by
  induction attempts with
  | nil =>
    intro now retryCount h
    by_cases hg : now - startTime < cfg.queueTimeoutMs <;>
      simpa [acquireLoop, hg] using h
  | cons a rest ih =>
    intro now retryCount h
    by_cases hg : now - startTime < cfg.queueTimeoutMs
    · rcases hs : acquireStep cfg startTime now retryCount a with r | ⟨d, rc⟩
      · simpa [acquireLoop, hg, hs] using h
      · have hd := acquireStep_sleep_bound cfg startTime now retryCount a d rc hs
        have hstep : acquireLoop cfg startTime (a :: rest) now retryCount =
            acquireLoop cfg startTime rest (now + max 0 d) rc := by
          simp [acquireLoop, hg, hs]
        rw [hstep]
        apply ih
        have hpoll : (0 : ℚ) ≤ POLL_INTERVAL_MAX_MS := by
          norm_num [POLL_INTERVAL_MAX_MS]
        rcases hd with hd | hd
        · have hmax : max 0 d ≤ cfg.queueTimeoutMs - (now - startTime) :=
            max_le (by linarith) hd
          linarith
        · have hmax : max 0 d ≤ POLL_INTERVAL_MAX_MS := max_le hpoll hd
          linarith
    · simpa [acquireLoop, hg] using h

/-- C2: a store error during any attempt of the rate limiter's acquire loop
makes the call return immediately — same clock, remaining attempts ignored —
with `acquired = false` and error kind `rate_limit_backend_error`; the model
of the rate limiter consults no process-local memory cache.  By contrast the
pacing guard, in each of its three store-failure modes (no client, a thrown
client error, a thrown script error), runs the same check against its memory
fallback and reports the memory path's result. -/
theorem rate_limit_backend_error_fail_closed :
    (∀ (cfg : RateLimitConfig) (startTime now : ℚ) (retryCount : ℕ)
        (rest : List RLAttempt),
      now - startTime < cfg.queueTimeoutMs →
      acquireLoop cfg startTime (.err :: rest) now retryCount =
        ⟨some ⟨false, some RLError.backendError, none, false⟩, now⟩) ∧
    (∀ (cfg : RateLimitConfig) (startTime : ℚ) (rest : List RLAttempt),
      cfg.enabled = true → 0 < cfg.queueTimeoutMs →
      acquireRateLimit cfg startTime (.err :: rest) =
        ⟨some ⟨false, some RLError.backendError, none, false⟩, startTime⟩) ∧
    (∀ (st : StoreState) (mem : Option ℤ)
        (startTime currentTimeMs maxWaitMs minIntervalMs : ℤ),
      st = .noClient ∨ st = .clientError ∨ st = .evalError →
      pacingCheckAndWait st mem startTime currentTimeMs maxWaitMs minIntervalMs =
        ((checkAndWaitWithMemory mem startTime currentTimeMs maxWaitMs
            minIntervalMs).result, .memory)) := by
  refine ⟨fun cfg startTime now retryCount rest hg => ?_,
    fun cfg startTime rest he ht => ?_, fun st mem s c mx mi hst => ?_⟩
  · simp [acquireLoop, hg, acquireStep]
  · simp [acquireRateLimit, he, acquireLoop, acquireStep, sub_self, ht]
  · rcases hst with h | h | h <;> subst h <;> rfl

/-- Witness for the C2 theorem: a concrete enabled configuration whose first
store attempt throws, and a concrete store-failure pacing call. -/
theorem rate_limit_backend_error_fail_closed_witness :
    (RateLimitConfig.mk true 60 20 30000 true).enabled = true ∧
    (0 : ℚ) < (RateLimitConfig.mk true 60 20 30000 true).queueTimeoutMs ∧
    acquireRateLimit (RateLimitConfig.mk true 60 20 30000 true) 0 [.err] =
      ⟨some ⟨false, some RLError.backendError, none, false⟩, 0⟩ ∧
    pacingCheckAndWait .evalError (some 1200) 1500 1500 1000 0 =
      ((checkAndWaitWithMemory (some 1200) 1500 1500 1000 0).result, .memory) :=
  ⟨rfl, by norm_num,
   rate_limit_backend_error_fail_closed.2.1 (RateLimitConfig.mk true 60 20 30000 true)
     0 [] rfl (by norm_num),
   rate_limit_backend_error_fail_closed.2.2 .evalError (some 1200) 1500 1500 1000 0
     (Or.inr (Or.inr rfl))⟩

/-- C4: with queueing enabled, `acquire` returns — with any outcome — after
blocking at most `queueTimeoutMs` plus one maximum poll interval of slack.
Moreover the deadline is checked before each loop iteration (once it has
passed, the loop returns `queue_timeout` at once); an explicit wait whose
computed duration exceeds the remaining timeout budget produces an immediate
`queue_timeout` failure instead of a sleep; and any explicit wait that is
performed is capped to the remaining budget. -/
theorem acquire_timeout_bound (cfg : RateLimitConfig) (startTime : ℚ)
    (attempts : List RLAttempt) (h0 : 0 ≤ cfg.queueTimeoutMs)
    (hq : cfg.enableQueueing = true) :
    ((acquireRateLimit cfg startTime attempts).endTime - startTime ≤
      cfg.queueTimeoutMs + POLL_INTERVAL_MAX_MS) ∧
    (∀ (atts : List RLAttempt) (now : ℚ) (retryCount : ℕ),
      ¬ now - startTime < cfg.queueTimeoutMs →
      acquireLoop cfg startTime atts now retryCount =
        ⟨some ⟨false, some RLError.queueTimeout, none, false⟩, now⟩) ∧
    (∀ (now : ℚ) (retryCount currentCount : ℕ) (oldestRequestTime rand : ℚ),
      oldestRequestTime ≠ 0 →
      cfg.queueTimeoutMs - (now - startTime) <
        max 0 (oldestRequestTime + cfg.windowSeconds * 1000 - now) →
      acquireStep cfg startTime now retryCount
          (.ok false currentCount oldestRequestTime rand) =
        .done ⟨false, some RLError.queueTimeout, none, false⟩) ∧
    (∀ (now : ℚ) (retryCount currentCount : ℕ) (oldestRequestTime rand : ℚ),
      oldestRequestTime ≠ 0 →
      0 < max 0 (oldestRequestTime + cfg.windowSeconds * 1000 - now) →
      max 0 (oldestRequestTime + cfg.windowSeconds * 1000 - now) ≤
        cfg.queueTimeoutMs - (now - startTime) →
      acquireStep cfg startTime now retryCount
          (.ok false currentCount oldestRequestTime rand) =
        .sleep (min (max 0 (oldestRequestTime + cfg.windowSeconds * 1000 - now))
          (cfg.queueTimeoutMs - (now - startTime))) retryCount ∧
      min (max 0 (oldestRequestTime + cfg.windowSeconds * 1000 - now))
          (cfg.queueTimeoutMs - (now - startTime)) ≤
        cfg.queueTimeoutMs - (now - startTime)) := by
  have hpoll : (0 : ℚ) ≤ POLL_INTERVAL_MAX_MS := by norm_num [POLL_INTERVAL_MAX_MS]
  refine ⟨?_, fun atts now retryCount hg => ?_,
    fun now retryCount currentCount oldest rand hne h2 => ?_,
    fun now retryCount currentCount oldest rand hne h2 h3 => ⟨?_, min_le_right _ _⟩⟩
  · by_cases he : cfg.enabled = false
    · simp only [acquireRateLimit, he, if_pos]
      simpa using by linarith
    · simp only [acquireRateLimit, he, if_neg]
      exact acquireLoop_endTime_bound cfg startTime attempts startTime 0
        (by simpa using by linarith)
  · cases atts <;> simp [acquireLoop, hg]
  · simp [acquireStep, hq, hne, h2]
  · simp [acquireStep, hq, hne, not_lt.mpr h3, h2]

/-- Witness for the C4 theorem: a concrete enabled, queueing configuration
with a 30-second timeout, run on a concrete attempt sequence. -/
theorem acquire_timeout_bound_witness :
    (0 : ℚ) ≤ (RateLimitConfig.mk true 60 20 30000 true).queueTimeoutMs ∧
    (RateLimitConfig.mk true 60 20 30000 true).enableQueueing = true ∧
    (acquireRateLimit (RateLimitConfig.mk true 60 20 30000 true) 0
        [.ok false 20 0 0, .ok true 1 0 0]).endTime - 0 ≤
      (RateLimitConfig.mk true 60 20 30000 true).queueTimeoutMs +
        POLL_INTERVAL_MAX_MS :=
  ⟨by norm_num, rfl,
   (acquire_timeout_bound (RateLimitConfig.mk true 60 20 30000 true) 0
     [.ok false 20 0 0, .ok true 1 0 0] (by norm_num) rfl).1⟩

/-! ## Theorems: circuit breaker.  Helper lemmas about the partition scan. -/

/-- The partition scan only depends on the registry's entries for the
scanned account id. -/
theorem findAccountData_congr (reg reg' : String → String → Option BreakerFields)
    (accountId : String) (l : List String)
    (h : ∀ t ∈ l, reg t accountId = reg' t accountId) :
    findAccountData reg accountId l = findAccountData reg' accountId l := by
  induction l with
  | nil => rfl
  | cons x xs ih =>
    simp only [findAccountData, h x (by simp)]
    cases hr : reg' x accountId with
    | some d => rfl
    | none => exact ih (fun y hy => h y (by simp [hy]))

/-- When the account exists in no scanned partition, the partition search for
a writable record finds nothing. -/
theorem findAccountType_none (reg : String → String → Option BreakerFields)
    (accountId : String) (l : List String)
    (h : ∀ t ∈ l, reg t accountId = none) :
    findAccountType reg accountId l = none := by
  induction l with
  | nil => rfl
  | cons x xs ih =>
    simp only [findAccountType, h x (by simp), Option.isSome_none,
      Bool.false_eq_true, if_false]
    exact ih (fun y hy => h y (by simp [hy]))

/-- A found account record determines the partition the update loop writes
to: the first partition holding a record holds exactly the found record. -/
theorem findAccountType_of_data (reg : String → String → Option BreakerFields)
    (accountId : String) (l : List String) (d : BreakerFields)
    (h : findAccountData reg accountId l = some d) :
    ∃ t, findAccountType reg accountId l = some t ∧ reg t accountId = some d := by
  induction l with
  | nil => simp [findAccountData] at h
  | cons x xs ih =>
    cases hr : reg x accountId with
    | some e =>
      have he : e = d := by simpa [findAccountData, hr] using h
      subst he
      exact ⟨x, by simp [findAccountType, hr], hr⟩
    | none =>
      have h' : findAccountData reg accountId xs = some d := by
        simpa [findAccountData, hr] using h
      obtain ⟨t, ht1, ht2⟩ := ih h'
      exact ⟨t, by simp [findAccountType, hr, ht1], ht2⟩

/-- After overwriting the record at the first partition found by the scan,
the account's visible record is the overwritten one. -/
theorem findAccountData_set_first (reg : String → String → Option BreakerFields)
    (accountId : String) (l : List String) (t : String)
    (v : Option BreakerFields) (d' : BreakerFields) (hv : v = some d')
    (h : findAccountType reg accountId l = some t) :
    findAccountData
      (fun t' i' => if t' = t ∧ i' = accountId then v else reg t' i')
      accountId l = v := by
  induction l with
  | nil => simp [findAccountType] at h
  | cons x xs ih =>
    by_cases hx : (reg x accountId).isSome = true
    · have hxt : x = t := by simpa [findAccountType, hx] using h
      subst hxt
      simp [findAccountData, hv]
    · have h' : findAccountType reg accountId xs = some t := by
        simpa [findAccountType, hx] using h
      have hreg : reg x accountId = none := by
        cases hr : reg x accountId
        · rfl
        · simp [hr] at hx
      by_cases hxt : x = t
      · subst hxt
        simp [findAccountData, hv]
      · simpa [findAccountData, hxt, hreg] using ih h'

/-- Overwriting the record at the first partition found by the scan leaves
that partition the first one found by a subsequent scan. -/
theorem findAccountType_set_first (reg : String → String → Option BreakerFields)
    (accountId : String) (l : List String) (t : String)
    (v : Option BreakerFields) (d' : BreakerFields) (hv : v = some d')
    (h : findAccountType reg accountId l = some t) :
    findAccountType
      (fun t' i' => if t' = t ∧ i' = accountId then v else reg t' i')
      accountId l = some t := by
  induction l with
  | nil => simp [findAccountType] at h
  | cons x xs ih =>
    by_cases hx : (reg x accountId).isSome = true
    · have hxt : x = t := by simpa [findAccountType, hx] using h
      subst hxt
      simp [findAccountType, hv]
    · have h' : findAccountType reg accountId xs = some t := by
        simpa [findAccountType, hx] using h
      have hreg : reg x accountId = none := by
        cases hr : reg x accountId
        · rfl
        · simp [hr] at hx
      by_cases hxt : x = t
      · subst hxt
        simp [findAccountType, hv]
      · simpa [findAccountType, hxt, hreg] using ih h'

/-- A breaker-state update for one account never changes what the scan sees
for any other account. -/
theorem findAccountData_other (reg : String → String → Option BreakerFields)
    (accountId other : String) (l : List String) (t : String)
    (v : Option BreakerFields) (hne : other ≠ accountId) :
    findAccountData
      (fun t' i' => if t' = t ∧ i' = accountId then v else reg t' i')
      other l = findAccountData reg other l :=
  findAccountData_congr _ reg other l (fun x _ => by simp [hne])

/-- Any breaker-state update leaves every error window untouched: the error
history lives in a separate store structure from the registry hash. -/
theorem updateAccountBreakerState_errors (s : BreakerStore) (accountId : String)
    (u : BreakerUpdate) :
    (updateAccountBreakerState s accountId u).1.errors = s.errors := by
  simp only [updateAccountBreakerState]
  cases findAccountType s.registry accountId accountTypes <;> simp

/-- A breaker-state update for one account leaves every other account's
visible record unchanged. -/
theorem updateAccountBreakerState_other (s : BreakerStore) (accountId other : String)
    (u : BreakerUpdate) (hne : other ≠ accountId) :
    getAccountData (updateAccountBreakerState s accountId u).1 other =
      getAccountData s other := by
  simp only [updateAccountBreakerState, getAccountData]
  cases hft : findAccountType s.registry accountId accountTypes with
  | none => simp
  | some t =>
    exact findAccountData_other s.registry accountId other accountTypes t _ hne

/-- A breaker-state update for an account the scan can see applies the field
updates to its record and reports success. -/
theorem updateAccountBreakerState_found (s : BreakerStore) (accountId : String)
    (u : BreakerUpdate) (d : BreakerFields)
    (h : getAccountData s accountId = some d) :
    getAccountData (updateAccountBreakerState s accountId u).1 accountId =
      some (applyUpdate d u) ∧
    (updateAccountBreakerState s accountId u).2 = true := by
  obtain ⟨t, ht, hreg⟩ :=
    findAccountType_of_data s.registry accountId accountTypes d h
  simp only [updateAccountBreakerState, ht]
  refine ⟨?_, trivial⟩
  have hset := findAccountData_set_first s.registry accountId accountTypes t
    ((s.registry t accountId).map (fun f => applyUpdate f u))
    (applyUpdate d u) (by rw [hreg]; rfl) ht
  simpa [getAccountData, hreg] using hset

/-- Shape of `record403Error` in the enabled, threshold-reached case. -/
theorem record403Error_eq_triggered (s : BreakerStore) (cfg : BreakerCfg)
    (accountId : String) (now : ℤ) (he : cfg.enabled = true)
    (hth : cfg.threshold ≤
      (redisRecord403Error (s.errors accountId) now cfg.windowSeconds).2) :
    record403Error s cfg accountId now =
      ((openCircuitBreaker
          ⟨s.registry, fun i =>
            if i = accountId then
              (redisRecord403Error (s.errors accountId) now cfg.windowSeconds).1
            else s.errors i⟩ cfg accountId now).1,
       ⟨true, (redisRecord403Error (s.errors accountId) now cfg.windowSeconds).2,
        cfg.threshold, "open"⟩) := by
  simp [record403Error, he, hth]

/-- Shape of `record403Error` in the enabled, below-threshold case. -/
theorem record403Error_eq_below (s : BreakerStore) (cfg : BreakerCfg)
    (accountId : String) (now : ℤ) (he : cfg.enabled = true)
    (hth : ¬ cfg.threshold ≤
      (redisRecord403Error (s.errors accountId) now cfg.windowSeconds).2) :
    record403Error s cfg accountId now =
      (⟨s.registry, fun i =>
          if i = accountId then
            (redisRecord403Error (s.errors accountId) now cfg.windowSeconds).1
          else s.errors i⟩,
       ⟨false, (redisRecord403Error (s.errors accountId) now cfg.windowSeconds).2,
        cfg.threshold, "closed"⟩) := by
  simp [record403Error, he, hth]

/-- C3: if the breaker is disabled by resolved config, `record403Error`
returns state `disabled` without recording anything; otherwise it appends one
failure timestamp to the account's rolling window, returns `triggered = true`
with state `open` when the resulting count reaches the threshold — actually
opening the breaker: the account's persisted record then holds
`state = open`, `openAt = now`, `openUntil = now + breakerDurationMinutes`
minutes — and returns `triggered = false` with state `closed` below the
threshold; and recording for one account changes neither the error window
nor the visible breaker record of any other account. -/
theorem record403Error_spec (s : BreakerStore) (cfg : BreakerCfg)
    (accountId : String) (now : ℤ) :
    (cfg.enabled = false →
      record403Error s cfg accountId now =
        (s, ⟨false, 0, cfg.threshold, "disabled"⟩)) ∧
    (cfg.enabled = true →
      ((record403Error s cfg accountId now).1.errors accountId =
        now :: (s.errors accountId).filter
          (fun t => now - t < cfg.windowSeconds * 1000)) ∧
      ((record403Error s cfg accountId now).2.errorCount =
        ((record403Error s cfg accountId now).1.errors accountId).length) ∧
      (cfg.threshold ≤ (record403Error s cfg accountId now).2.errorCount →
        (record403Error s cfg accountId now).2.triggered = true ∧
        (record403Error s cfg accountId now).2.state = "open") ∧
      ((record403Error s cfg accountId now).2.errorCount < cfg.threshold →
        (record403Error s cfg accountId now).2.triggered = false ∧
        (record403Error s cfg accountId now).2.state = "closed")) ∧
    (∀ d, getAccountData s accountId = some d → cfg.enabled = true →
      cfg.threshold ≤ (record403Error s cfg accountId now).2.errorCount →
      getAccountData (record403Error s cfg accountId now).1 accountId =
        some ⟨some "open", some now,
          some (now + cfg.breakerDurationMinutes * 60 * 1000)⟩) ∧
    (∀ other, other ≠ accountId →
      (record403Error s cfg accountId now).1.errors other = s.errors other ∧
      getAccountData (record403Error s cfg accountId now).1 other =
        getAccountData s other) := by
  refine ⟨fun hd => by simp [record403Error, hd], fun he => ?_,
    fun d hd hen hth => ?_, fun other hne => ?_⟩
  · by_cases hth : cfg.threshold ≤
        (redisRecord403Error (s.errors accountId) now cfg.windowSeconds).2
    · have hmain := record403Error_eq_triggered s cfg accountId now he hth
      have herrs : (record403Error s cfg accountId now).1.errors accountId =
          (redisRecord403Error (s.errors accountId) now cfg.windowSeconds).1 := by
        rw [hmain]
        simp only [openCircuitBreaker]
        rw [updateAccountBreakerState_errors]
        simp
      refine ⟨?_, ?_, fun _ => ?_, fun hlt => ?_⟩
      · rw [herrs]; rfl
      · rw [herrs, hmain]; rfl
      · rw [hmain]; exact ⟨rfl, rfl⟩
      · rw [hmain] at hlt
        exact absurd hth (not_le.mpr hlt)
    · have hmain := record403Error_eq_below s cfg accountId now he hth
      refine ⟨?_, ?_, fun hge => ?_, fun _ => ?_⟩
      · rw [hmain]; simp [redisRecord403Error]
      · rw [hmain]; simp [redisRecord403Error]
      · rw [hmain] at hge
        exact absurd hge hth
      · rw [hmain]; exact ⟨rfl, rfl⟩
  · by_cases hth0 : cfg.threshold ≤
        (redisRecord403Error (s.errors accountId) now cfg.windowSeconds).2
    · rw [record403Error_eq_triggered s cfg accountId now hen hth0]
      simp only [openCircuitBreaker]
      have hd1 : getAccountData
          (⟨s.registry, fun i =>
            if i = accountId then
              (redisRecord403Error (s.errors accountId) now cfg.windowSeconds).1
            else s.errors i⟩ : BreakerStore) accountId = some d := hd
      exact (updateAccountBreakerState_found _ accountId
        ⟨some (some "open"), some (some now),
         some (some (now + cfg.breakerDurationMinutes * 60 * 1000))⟩ d hd1).1
    · rw [record403Error_eq_below s cfg accountId now hen hth0] at hth
      exact absurd hth hth0
  · by_cases he : cfg.enabled = true
    · by_cases hth : cfg.threshold ≤
          (redisRecord403Error (s.errors accountId) now cfg.windowSeconds).2
      · rw [record403Error_eq_triggered s cfg accountId now he hth]
        constructor
        · simp only [openCircuitBreaker]
          rw [updateAccountBreakerState_errors]
          simp [hne]
        · simp only [openCircuitBreaker]
          rw [updateAccountBreakerState_other _ _ _ _ hne]
          rfl
      · rw [record403Error_eq_below s cfg accountId now he hth]
        exact ⟨by simp [hne], rfl⟩
    · have he' : cfg.enabled = false := by
        cases hcb : cfg.enabled
        · rfl
        · exact absurd hcb he
      simp [record403Error, he']

/-- C5: `checkAndRecoverBreaker` changes nothing and reports
`recovered = false` when the account is unknown or its state is not `open`;
for an `open` account it transitions to `half_open` and reports
`recovered = true, state = half_open` once `now ≥ openUntil`, and otherwise
leaves the store unchanged reporting `recovered = false, state = open` with
`remainingMs = openUntil - now`. -/
theorem checkAndRecoverBreaker_spec (s : BreakerStore) (accountId : String)
    (now : ℤ) :
    (getAccountData s accountId = none →
      checkAndRecoverBreaker s accountId now = (s, ⟨false, "closed", none⟩)) ∧
    (∀ d, getAccountData s accountId = some d → d.state ≠ some "open" →
      checkAndRecoverBreaker s accountId now =
        (s, ⟨false, d.state.getD "closed", none⟩)) ∧
    (∀ d u, getAccountData s accountId = some d → d.state = some "open" →
      d.openUntil = some u → u ≤ now →
      (checkAndRecoverBreaker s accountId now).2 = ⟨true, "half_open", none⟩ ∧
      getAccountData (checkAndRecoverBreaker s accountId now).1 accountId =
        some ⟨some "half_open", d.openAt, d.openUntil⟩) ∧
    (∀ d u, getAccountData s accountId = some d → d.state = some "open" →
      d.openUntil = some u → now < u →
      checkAndRecoverBreaker s accountId now =
        (s, ⟨false, "open", some (u - now)⟩)) := by
  refine ⟨fun h => by simp [checkAndRecoverBreaker, h],
    fun d h hs => by simp [checkAndRecoverBreaker, h, hs],
    fun d u h hs hu hle => ?_, fun d u h hs hu hgt => ?_⟩
  · have hrec : checkAndRecoverBreaker s accountId now =
        ((halfOpenCircuitBreaker s accountId).1, ⟨true, "half_open", none⟩) := by
      simp [checkAndRecoverBreaker, h, hs, hu, hle]
    refine ⟨by rw [hrec], ?_⟩
    rw [hrec]
    obtain ⟨t, ht, hreg⟩ :=
      findAccountType_of_data s.registry accountId accountTypes d h
    simp only [halfOpenCircuitBreaker, updateAccountBreakerState, ht]
    have := findAccountData_set_first s.registry accountId accountTypes t
      ((s.registry t accountId).map
        (fun f => applyUpdate f ⟨some (some "half_open"), none, none⟩))
      (applyUpdate d ⟨some (some "half_open"), none, none⟩)
      (by rw [hreg]; rfl) ht
    simpa [getAccountData, applyUpdate, hreg] using this
  · simp [checkAndRecoverBreaker, h, hs, hu, not_le.mpr hgt]

/-- Witness for the C3 theorem: recording a 403 for a fresh account with an
enabled threshold-3 configuration appends the single timestamp; and a 403
reaching a threshold of 1 for a concrete registered account persists the
opened record `state = open, openAt = 5000, openUntil = 5000 + 30min`. -/
theorem record403Error_spec_witness :
    ((BreakerCfg.mk true 3 300 30 true).enabled = true ∧
      (record403Error (BreakerStore.mk (fun _ _ => none) (fun _ => []))
          (BreakerCfg.mk true 3 300 30 true) "a" 5000).1.errors "a" =
        5000 :: ([] : List ℤ).filter (fun t => 5000 - t < (300 : ℤ) * 1000)) ∧
    (getAccountData
        (BreakerStore.mk
          (fun t i =>
            if t = "bedrock_account" ∧ i = "a" then some ⟨none, none, none⟩
            else none)
          (fun _ => [])) "a" = some ⟨none, none, none⟩ ∧
      (BreakerCfg.mk true 1 300 30 true).enabled = true ∧
      (BreakerCfg.mk true 1 300 30 true).threshold ≤
        (record403Error
          (BreakerStore.mk
            (fun t i =>
              if t = "bedrock_account" ∧ i = "a" then some ⟨none, none, none⟩
              else none)
            (fun _ => []))
          (BreakerCfg.mk true 1 300 30 true) "a" 5000).2.errorCount ∧
      getAccountData
          (record403Error
            (BreakerStore.mk
              (fun t i =>
                if t = "bedrock_account" ∧ i = "a" then some ⟨none, none, none⟩
                else none)
              (fun _ => []))
            (BreakerCfg.mk true 1 300 30 true) "a" 5000).1 "a" =
        some ⟨some "open", some 5000,
          some (5000 + (BreakerCfg.mk true 1 300 30 true).breakerDurationMinutes
            * 60 * 1000)⟩) :=
  ⟨⟨rfl,
    ((record403Error_spec (BreakerStore.mk (fun _ _ => none) (fun _ => []))
       (BreakerCfg.mk true 3 300 30 true) "a" 5000).2.1 rfl).1⟩,
   ⟨by decide, rfl, by decide,
    (record403Error_spec
       (BreakerStore.mk
         (fun t i =>
           if t = "bedrock_account" ∧ i = "a" then some ⟨none, none, none⟩
           else none)
         (fun _ => []))
       (BreakerCfg.mk true 1 300 30 true) "a" 5000).2.2.1
      ⟨none, none, none⟩ (by decide) rfl (by decide)⟩⟩

/-- Witness for the C5 theorem: an account opened until time 100 recovers to
`half_open` when checked at time 150. -/
theorem checkAndRecoverBreaker_spec_witness :
    getAccountData
        (BreakerStore.mk
          (fun t i =>
            if t = "claude_account" ∧ i = "a" then
              some ⟨some "open", some 0, some 100⟩
            else none)
          (fun _ => [])) "a" = some ⟨some "open", some 0, some 100⟩ ∧
    (BreakerFields.mk (some "open") (some 0) (some 100)).state = some "open" ∧
    (BreakerFields.mk (some "open") (some 0) (some 100)).openUntil = some 100 ∧
    (100 : ℤ) ≤ 150 ∧
    (checkAndRecoverBreaker
        (BreakerStore.mk
          (fun t i =>
            if t = "claude_account" ∧ i = "a" then
              some ⟨some "open", some 0, some 100⟩
            else none)
          (fun _ => [])) "a" 150).2 = ⟨true, "half_open", none⟩ :=
  ⟨by decide, rfl, rfl, by decide,
   ((checkAndRecoverBreaker_spec
      (BreakerStore.mk
        (fun t i =>
          if t = "claude_account" ∧ i = "a" then
            some ⟨some "open", some 0, some 100⟩
          else none)
        (fun _ => [])) "a" 150).2.2.1
      ⟨some "open", some 0, some 100⟩ 100 (by decide) rfl rfl (by decide)).1⟩

/-- `checkAndRecoverBreaker` never touches any error window. -/
theorem checkAndRecoverBreaker_errors (s : BreakerStore) (accountId : String)
    (now : ℤ) :
    (checkAndRecoverBreaker s accountId now).1.errors = s.errors := by
  unfold checkAndRecoverBreaker
  cases getAccountData s accountId with
  | none => rfl
  | some d =>
    dsimp only
    split_ifs <;>
      first
        | rfl
        | (simp only [halfOpenCircuitBreaker]
           rw [updateAccountBreakerState_errors])

/-- C8: for an existing account, `closeCircuitBreaker` clears the rolling
403-error history and resets the record to `state = closed` with `openAt`
and `openUntil` removed; it is idempotent (a second call again reports
success and leaves the same cleared record); and it is the only operation
that clears error history — `halfOpenCircuitBreaker` sets `half_open`
keeping the error window and the open timestamps, `openCircuitBreaker` and
`checkAndRecoverBreaker` never touch error windows, and an enabled
`record403Error` always leaves the account's window nonempty. -/
theorem closeCircuitBreaker_spec (s : BreakerStore) (accountId : String)
    (d : BreakerFields) (h : getAccountData s accountId = some d) :
    ((closeCircuitBreaker s accountId).2 = true ∧
      (closeCircuitBreaker s accountId).1.errors accountId = [] ∧
      getAccountData (closeCircuitBreaker s accountId).1 accountId =
        some ⟨some "closed", none, none⟩) ∧
    ((closeCircuitBreaker (closeCircuitBreaker s accountId).1 accountId).2 = true ∧
      (closeCircuitBreaker (closeCircuitBreaker s accountId).1 accountId).1.errors
          accountId = [] ∧
      getAccountData
          (closeCircuitBreaker (closeCircuitBreaker s accountId).1 accountId).1
          accountId = some ⟨some "closed", none, none⟩) ∧
    ((halfOpenCircuitBreaker s accountId).1.errors = s.errors ∧
      getAccountData (halfOpenCircuitBreaker s accountId).1 accountId =
        some ⟨some "half_open", d.openAt, d.openUntil⟩) ∧
    (∀ (cfg : BreakerCfg) (now : ℤ),
      (openCircuitBreaker s cfg accountId now).1.errors = s.errors) ∧
    (∀ now : ℤ, (checkAndRecoverBreaker s accountId now).1.errors = s.errors) ∧
    (∀ (cfg : BreakerCfg) (now : ℤ), cfg.enabled = true →
      (record403Error s cfg accountId now).1.errors accountId ≠ []) := by
  have hclear : getAccountData (clear403Errors s accountId) accountId = some d := h
  have h1 := updateAccountBreakerState_found (clear403Errors s accountId) accountId
    ⟨some (some "closed"), some none, some none⟩ d hclear
  have hC : getAccountData (closeCircuitBreaker s accountId).1 accountId =
      some ⟨some "closed", none, none⟩ := h1.1
  have hclear2 : getAccountData
      (clear403Errors (closeCircuitBreaker s accountId).1 accountId) accountId =
      some ⟨some "closed", none, none⟩ := hC
  have h2 := updateAccountBreakerState_found
    (clear403Errors (closeCircuitBreaker s accountId).1 accountId) accountId
    ⟨some (some "closed"), some none, some none⟩ ⟨some "closed", none, none⟩ hclear2
  refine ⟨⟨rfl, ?_, hC⟩, ⟨rfl, ?_, h2.1⟩, ⟨?_, ?_⟩, fun cfg now => ?_,
    fun now => checkAndRecoverBreaker_errors s accountId now, fun cfg now hen => ?_⟩
  · simp only [closeCircuitBreaker]
    rw [updateAccountBreakerState_errors]
    simp [clear403Errors]
  · simp only [closeCircuitBreaker]
    rw [updateAccountBreakerState_errors]
    simp [clear403Errors]
  · simp only [halfOpenCircuitBreaker]
    rw [updateAccountBreakerState_errors]
  · exact (updateAccountBreakerState_found s accountId
      ⟨some (some "half_open"), none, none⟩ d h).1
  · simp only [openCircuitBreaker]
    rw [updateAccountBreakerState_errors]
  · by_cases hth : cfg.threshold ≤
        (redisRecord403Error (s.errors accountId) now cfg.windowSeconds).2
    · rw [record403Error_eq_triggered s cfg accountId now hen hth]
      simp only [openCircuitBreaker]
      rw [updateAccountBreakerState_errors]
      simp [redisRecord403Error]
    · rw [record403Error_eq_below s cfg accountId now hen hth]
      simp [redisRecord403Error]

/-- Witness for the C8 theorem: closing the breaker of a concrete open
account clears its two-entry error window and resets its record. -/
theorem closeCircuitBreaker_spec_witness :
    getAccountData
        (BreakerStore.mk
          (fun t i =>
            if t = "gemini_account" ∧ i = "a" then
              some ⟨some "open", some 0, some 100⟩
            else none)
          (fun _ => [1, 2])) "a" = some ⟨some "open", some 0, some 100⟩ ∧
    ((closeCircuitBreaker
        (BreakerStore.mk
          (fun t i =>
            if t = "gemini_account" ∧ i = "a" then
              some ⟨some "open", some 0, some 100⟩
            else none)
          (fun _ => [1, 2])) "a").2 = true ∧
      (closeCircuitBreaker
        (BreakerStore.mk
          (fun t i =>
            if t = "gemini_account" ∧ i = "a" then
              some ⟨some "open", some 0, some 100⟩
            else none)
          (fun _ => [1, 2])) "a").1.errors "a" = [] ∧
      getAccountData
        (closeCircuitBreaker
          (BreakerStore.mk
            (fun t i =>
              if t = "gemini_account" ∧ i = "a" then
                some ⟨some "open", some 0, some 100⟩
              else none)
            (fun _ => [1, 2])) "a").1 "a" = some ⟨some "closed", none, none⟩) :=
  ⟨by decide,
   (closeCircuitBreaker_spec
     (BreakerStore.mk
       (fun t i =>
         if t = "gemini_account" ∧ i = "a" then
           some ⟨some "open", some 0, some 100⟩
         else none)
       (fun _ => [1, 2])) "a" ⟨some "open", some 0, some 100⟩ (by decide)).1⟩

/-- C9: `getBreakerStatus` reports its live error count over a fixed
300-second window — independent of the configured `windowSeconds` — so with
`windowSeconds ≠ 300` the reported count can differ from the count
`record403Error` computes against the threshold. -/
theorem getBreakerStatus_fixed_window :
    (∀ (s : BreakerStore) (cfg cfg' : BreakerCfg) (accountId : String) (now : ℤ),
      (getBreakerStatus s cfg accountId now).errorCount =
        get403ErrorCount (s.errors accountId) now 300 ∧
      (getBreakerStatus s cfg accountId now).errorCount =
        (getBreakerStatus s cfg' accountId now).errorCount) ∧
    (∃ (s : BreakerStore) (cfg : BreakerCfg) (accountId : String) (now : ℤ),
      cfg.windowSeconds ≠ 300 ∧ cfg.enabled = true ∧
      (getBreakerStatus s cfg accountId now).errorCount ≠
        (record403Error s cfg accountId now).2.errorCount) := by
  constructor
  · intro s cfg cfg' accountId now
    constructor
    · unfold getBreakerStatus
      cases getAccountData s accountId <;> rfl
    · unfold getBreakerStatus
      cases getAccountData s accountId <;> rfl
  · exact ⟨⟨fun _ _ => none, fun i => if i = "a" then [0] else []⟩,
      ⟨true, 99, 500, 30, true⟩, "a", 400000, by decide, rfl, by decide⟩

/-- C10: `record403Error` ignores whether `openCircuitBreaker` succeeded:
when the count reaches the threshold but the account record exists in no
account-type partition (so `_updateAccountBreakerState` persists nothing and
reports failure), it still returns `triggered = true` with state `open` while
the persisted registry is unchanged. -/
theorem record403Error_ignores_open_failure (s : BreakerStore) (cfg : BreakerCfg)
    (accountId : String) (now : ℤ) (he : cfg.enabled = true)
    (hmiss : ∀ t, s.registry t accountId = none)
    (hth : cfg.threshold ≤
      (redisRecord403Error (s.errors accountId) now cfg.windowSeconds).2) :
    (record403Error s cfg accountId now).2.triggered = true ∧
    (record403Error s cfg accountId now).2.state = "open" ∧
    (record403Error s cfg accountId now).1.registry = s.registry ∧
    (updateAccountBreakerState s accountId
      ⟨some (some "open"), some (some now),
       some (some (now + cfg.breakerDurationMinutes * 60 * 1000))⟩).2 = false := by
  have hft : findAccountType s.registry accountId accountTypes = none :=
    findAccountType_none s.registry accountId accountTypes (fun t _ => hmiss t)
  rw [record403Error_eq_triggered s cfg accountId now he hth]
  refine ⟨rfl, rfl, ?_, ?_⟩
  · simp only [openCircuitBreaker, updateAccountBreakerState, hft]
  · simp only [updateAccountBreakerState, hft]

/-- Witness for the C10 theorem: an account registered in no partition whose
first 403 reaches a threshold of 1 still yields `triggered = true, open`. -/
theorem record403Error_ignores_open_failure_witness :
    (BreakerCfg.mk true 1 300 30 true).enabled = true ∧
    (∀ t, (BreakerStore.mk (fun _ _ => none) (fun _ => [])).registry t "a" = none) ∧
    (BreakerCfg.mk true 1 300 30 true).threshold ≤
      (redisRecord403Error
        ((BreakerStore.mk (fun _ _ => none) (fun _ => [])).errors "a") 5000
        (BreakerCfg.mk true 1 300 30 true).windowSeconds).2 ∧
    (record403Error (BreakerStore.mk (fun _ _ => none) (fun _ => []))
        (BreakerCfg.mk true 1 300 30 true) "a" 5000).2.triggered = true :=
  ⟨rfl, fun _ => rfl, by decide,
   (record403Error_ignores_open_failure
     (BreakerStore.mk (fun _ _ => none) (fun _ => []))
     (BreakerCfg.mk true 1 300 30 true) "a" 5000 rfl (fun _ => rfl) (by decide)).1⟩

end RelayGuard
